import Mathlib

/-!
Shallow embedding of the pict-rs core (alias/hash index, upload pipeline,
validator dispatch, delete protocol, variant chain parsing) and proofs of the
behavioural properties stated about it.

Conventions of the embedding:
- sled byte keys and values are `List Nat` (one entry per byte);
- Rust `String`s are Lean `String`s; their byte view is `strBytes` (the keys,
  ids and tokens handled by this program are ASCII alphanumerics plus `/`,
  `.` and digits, where the char-code view and the UTF-8 view coincide);
- a sled tree is an association list, mutated by `aget` / `ainsert` /
  `aremove`; compare-and-swap with `old = None` is expressed as an `aget`
  test followed by `ainsert`;
- fallible Rust functions return `Except UploadError`;
- randomness (fresh tokens, fresh filenames) is passed in as an argument;
- external image codecs (ImageMagick, the gif crate) are kept as opaque
  actions in a `ValidateAction` result rather than being modelled bytewise.
-/

deriving instance DecidableEq for Except

namespace Pictrs

/-- Byte view of a string: one `Nat` per char code.  For the ASCII strings this
program stores (alphanumeric aliases, decimal ids, `/delete` suffixes) this
agrees with the UTF-8 byte encoding used by Rust `String::as_bytes`. -/
def strBytes (s : String) : List Nat := s.data.map Char.toNat

/-- Models `String::from_utf8` on the byte view: succeeds exactly on valid
encodings, restricted here to the ASCII range in which `strBytes` is the
encoder (all stored ids and tokens are ASCII alphanumerics). -/
def bytesToStr (l : List Nat) : Option String :=
  if l.all (fun b => decide (b < 128)) then some (String.mk (l.map Char.ofNat))
  else none

/-- Point lookup in a sled tree (association list model). -/
def aget {α β : Type} [DecidableEq α] : List (α × β) → α → Option β
  | [], _ => none
  | (k, v) :: rest, key => if k = key then some v else aget rest key

/-- Row removal in a sled tree. -/
def aremove {α β : Type} [DecidableEq α] (m : List (α × β)) (key : α) :
    List (α × β) :=
  m.filter (fun kv => decide (kv.1 ≠ key))

/-- Row insert (overwrite) in a sled tree. -/
def ainsert {α β : Type} [DecidableEq α] (m : List (α × β)) (key : α) (v : β) :
    List (α × β) :=
  (key, v) :: aremove m key

/-- Strict byte-lexicographic order on sled keys, the order of `db.range`. -/
def bytesLt : List Nat → List Nat → Bool
  | [], [] => false
  | [], _ :: _ => true
  | _ :: _, [] => false
  | a :: as, b :: bs => decide (a < b) || (decide (a = b) && bytesLt as bs)

/-- Reflexive byte-lexicographic order on sled keys. -/
def bytesLe (x y : List Nat) : Bool := bytesLt x y || decide (x = y)

/-- Membership of a key in a half-open sled range `start..end`. -/
def inRange (bounds : List Nat × List Nat) (k : List Nat) : Bool :=
  bytesLe bounds.1 k && bytesLt k bounds.2

/-- `to_ext` from main.rs: extension table used for aliases and filenames.
The source compares against `mime::IMAGE_PNG` / `IMAGE_JPEG` / `IMAGE_GIF`
and falls back to `.bmp` for every other mime type. -/
def to_ext (mime : String) : String :=
  if mime = "image/png" then ".png"
  else if mime = "image/jpeg" then ".jpg"
  else if mime = "image/gif" then ".gif"
  else ".bmp"

/-- `file_name` from upload_manager.rs: random stem plus extension. -/
def file_name (name : String) (content_type : String) : String :=
  name ++ to_ext content_type

/-- `alias_key` from upload_manager.rs: `hash ‖ 0x00 ‖ id`. -/
def alias_key (hash : List Nat) (id : String) : List Nat :=
  hash ++ [0] ++ strBytes id

/-- `alias_key_bounds` from upload_manager.rs: `(hash ‖ 0x00, hash ‖ 0x01)`. -/
def alias_key_bounds (hash : List Nat) : List Nat × List Nat :=
  (hash ++ [0], hash ++ [1])

/-- `alias_id_key` from upload_manager.rs: `"<alias>/id"`. -/
def alias_id_key (al : String) : String := al ++ "/id"

/-- `delete_key` from upload_manager.rs: `"<alias>/delete"`. -/
def delete_key (al : String) : String := al ++ "/delete"

/-- `variant_key` from upload_manager.rs: `hash ‖ 0x02 ‖ path`. -/
def variant_key (hash : List Nat) (path : String) : List Nat :=
  hash ++ [2] ++ strBytes path

/-- `variant_key_bounds` from upload_manager.rs: `(hash ‖ 0x02, hash ‖ 0x03)`. -/
def variant_key_bounds (hash : List Nat) : List Nat × List Nat :=
  (hash ++ [2], hash ++ [3])

/-- The `UploadError` enum of error.rs, with payloads elided where they do not
affect control flow.  `FileExists` and `Wand` are the additional variants
referenced from upload_manager.rs and validate.rs. -/
inductive UploadError
  | Upload
  | Save
  | Db
  | ParseString
  | Image
  | Io
  | Canceled
  | NoFiles
  | MissingExtension
  | MissingAlias
  | MissingFile
  | InvalidToken
  | InvalidImage
  | UnsupportedFormat
  | Download
  | Payload
  | SendRequest
  | MissingFilename
  | Path
  | DuplicateAlias
  | Gif
  | FileExists
  | Wand
  deriving DecidableEq, Repr

/-- `ResponseError::status_code` for `UploadError` (error.rs lines 104-114):
Gif, DuplicateAlias, NoFiles and Upload map to 400; MissingAlias and
MissingFilename to 404; InvalidToken to 403; everything else falls to the
wildcard arm and maps to 500. -/
def status_code : UploadError → Nat
  | .Gif | .DuplicateAlias | .NoFiles | .Upload => 400
  | .MissingAlias | .MissingFilename => 404
  | .InvalidToken => 403
  | _ => 500

/-- `Format` from config.rs: the optional prescribed target format. -/
inductive Format
  | jpeg
  | png
  | webp
  deriving DecidableEq, Repr

/-- `Format::to_mime` from config.rs. -/
def Format.to_mime : Format → String
  | .jpeg => "image/jpeg"
  | .png => "image/png"
  | .webp => "image/webp"

/-- `rexiv2::MediaType` as consumed by validate.rs.  WebP is reported by
rexiv2 as `Other("image/webp")`; `other` covers that and any remaining type. -/
inductive MediaType
  | bmp
  | gif
  | jpeg
  | png
  | tga
  | tiff
  | other (s : String)
  deriving DecidableEq, Repr

/-- The side effect validate_image performs on the tmp file, kept opaque
(the codecs are external): which re-encoding path of validate.rs ran. -/
inductive ValidateAction
  | reencodeGif
  | clearMetadata
  | rewriteWebp
  | convertTo (f : Format)
  deriving DecidableEq, Repr

/-- The `match (prescribed_format, meta.get_media_type()?)` dispatch of
`validate_image` (validate.rs lines 90-177), with Rust's first-match
semantics rendered as an ordered if-chain.  Returns the action taken on the
tmp file together with the content type handed back to the caller. -/
def validate_image (prescribed : Option Format) (detected : MediaType) :
    Except UploadError (ValidateAction × String) :=
  if detected = .gif then
    .ok (.reencodeGif, "image/gif")
  else if detected = .jpeg ∧ (prescribed = some .jpeg ∨ prescribed = none) then
    .ok (.clearMetadata, "image/jpeg")
  else if detected = .png ∧ (prescribed = some .png ∨ prescribed = none) then
    .ok (.clearMetadata, "image/png")
  else if detected = .other "image/webp" ∧
      (prescribed = some .webp ∨ prescribed = none) then
    .ok (.rewriteWebp, "image/webp")
  else
    match prescribed with
    | some f => .ok (.convertTo f, f.to_mime)
    | none => .error .UnsupportedFormat

/-- The keyspaces touched by the delete transaction: the default tree (byte
keys) and the alias tree (string keys, byte values). -/
structure Store where
  db : List (List Nat × List Nat)
  aliasTree : List (String × List Nat)
  deriving DecidableEq, Repr

/-- Phase 1 of `UploadManager::delete` (upload_manager.rs lines 143-181): the
sled transaction over `[db, alias_tree]`.  Mutations are staged on local
copies; an abort returns the error together with the original, untouched
store, a commit returns the removed hash and the mutated store.  The token
comparison `existing_token != token` compares the stored bytes with the
supplied string's bytes. -/
def delete_transaction (s : Store) (al token : String) :
    Except UploadError (List Nat) × Store :=
  match aget s.aliasTree (delete_key al) with
  | none => (.error .MissingAlias, s)
  | some existing_token =>
    let at1 := aremove s.aliasTree (delete_key al)
    if existing_token ≠ strBytes token then (.error .InvalidToken, s)
    else
      match aget at1 (alias_id_key al) with
      | none => (.error .MissingAlias, s)
      | some idBytes =>
        let at2 := aremove at1 (alias_id_key al)
        match bytesToStr idBytes with
        | none => (.error .ParseString, s)
        | some id =>
          match aget at2 al with
          | none => (.error .MissingAlias, s)
          | some hash =>
            let at3 := aremove at2 al
            let db1 := aremove s.db (alias_key hash id)
            (.ok hash, { db := db1, aliasTree := at3 })

/-- `UploadManager::delete_token` (upload_manager.rs lines 230-262): generate
a fresh 10-char token (passed in as `fresh`, randomness is external), then
compare-and-swap it under `"<alias>/delete"` with `old = None`.  If the CAS
fails because a token is already stored, the stored one is decoded and
returned instead. -/
def delete_token (tree : List (String × List Nat)) (al fresh : String) :
    Except UploadError (String × List (String × List Nat)) :=
  match aget tree (delete_key al) with
  | some stored =>
    match bytesToStr stored with
    | some s => .ok (s, tree)
    | none => .error .ParseString
  | none => .ok (fresh, ainsert tree (delete_key al) (strBytes fresh))

/-- Repeated calls to `delete_token` for one alias, with the sequence of
freshly generated random tokens passed in; stops at the first error. -/
def delete_token_calls (tree : List (String × List Nat)) (al : String) :
    List String → List (Except UploadError String)
  | [] => []
  | f :: fs =>
    match delete_token tree al f with
    | .ok (t, tree2) => .ok t :: delete_token_calls tree2 al fs
    | .error e => [.error e]

/-- `safe_save_stream` (upload_manager.rs lines 677-701) over a filesystem
modelled as a map from path to contents: the parent directory is created
(always succeeds in the model), then if the target path already exists the
function fails with `FileExists`; otherwise the stream's chunks are written
to the target.  Returns the result together with the filesystem after the
call. -/
def safe_save_stream (fs : List (String × List Nat)) (dest : String)
    (stream : List (List Nat)) :
    Except UploadError Unit × List (String × List Nat) :=
  match aget fs dest with
  | some _ => (.error .FileExists, fs)
  | none => (.ok (), ainsert fs dest stream.flatten)

/-- `UploadManager::import` (upload_manager.rs lines 266-304), abstracted to
its dataflow: the stream is saved to a tmp file; if `validate` is set the
canonicalization `canon` (the `validate_image` rewrite, as a function from
tmp-file bytes to content type and canonical bytes) replaces the content
type and the tmp-file bytes, otherwise the caller-supplied content type is
kept and the tmp file still holds the raw stream bytes; the hash stored for
dedup is `hashFn` (SHA-256 in the source) of the tmp-file bytes.  Returns
the alias, the content type used downstream, and the stored hash. -/
def manager_import (hashFn : List Nat → List Nat)
    (canon : List Nat → Except UploadError (String × List Nat))
    (al content_type : String) (validate : Bool) (stream : List (List Nat)) :
    Except UploadError (String × String × List Nat) :=
  let tmp := stream.flatten
  match (if validate then canon tmp else .ok (content_type, tmp)) with
  | .error e => .error e
  | .ok (ct, bytes) => .ok (al, ct, hashFn bytes)

/-- The closed operator set of processor.rs.  Blur's σ is an `f64` in the
source; floating point is out of scope, so the blur payload is kept as the
raw segment remainder handed to the f64 parser. -/
inductive Op
  | identity
  | thumbnail (n : Nat)
  | blur (sigma : String)
  deriving DecidableEq, Repr

/-- Fuel-driven core of `str::trim_start_matches`: strip the pattern from the
front as many times as it occurs.  Each successful strip removes at least one
char (patterns used here are nonempty), so `s.length` fuel is exact. -/
def trimStartAux (pat : List Char) : Nat → List Char → List Char
  | 0, s => s
  | fuel + 1, s =>
    if pat.isPrefixOf s ∧ pat ≠ [] then trimStartAux pat fuel (s.drop pat.length)
    else s

/-- `str::trim_start_matches(pat)`: repeatedly remove the prefix `pat`. -/
def trim_start_matches (pat s : String) : String :=
  String.mk (trimStartAux pat.data (s.data.length + 1) s.data)

/-- `str::starts_with`. -/
def str_starts_with (s pre : String) : Bool := pre.data.isPrefixOf s.data

/-- `<usize as FromStr>::from_str`: optional leading `+`, then one or more
ASCII digits, rejecting values that overflow 64-bit usize. -/
def parse_usize (s : String) : Option Nat :=
  let digits := match s.data with
    | '+' :: rest => rest
    | l => l
  if digits.isEmpty then none
  else if digits.all Char.isDigit then
    let v := digits.foldl (fun acc c => acc * 10 + (c.toNat - 48)) 0
    if v < 2 ^ 64 then some v else none
  else none

/-- `Thumbnail::parse` (processor.rs lines 88-94): strip the `thumbnail`
prefix and parse the remainder as usize. -/
def thumbnail_parse (s : String) : Option Op :=
  (parse_usize (trim_start_matches "thumbnail" s)).map Op.thumbnail

/-- `Processor::is_whitelisted`: a missing whitelist admits everything. -/
def is_whitelisted (whitelist : Option (List String)) (name : String) : Bool :=
  (whitelist.map (fun wl => wl.contains name)).getD true

/-- `build_chain` (processor.rs lines 184-199): for each segment, the first
processor whose `is_processor` predicate matches and which is whitelisted
claims the segment; its `parse` result (possibly `None`, dropping the
segment) is final and later processors are not consulted.  Order: Identity
(exact match), Thumbnail (prefix `thumbnail`), Blur (prefix `blur`).  Blur's
f64 parse is the oracle `blurParse` (floating point is out of scope). -/
def build_chain (blurParse : String → Option String) (args : List String)
    (whitelist : Option (List String)) : List Op :=
  args.filterMap (fun arg =>
    if arg = "identity" ∧ is_whitelisted whitelist "identity" then
      some .identity
    else if str_starts_with arg "thumbnail" ∧
        is_whitelisted whitelist "thumbnail" then
      thumbnail_parse arg
    else if str_starts_with arg "blur" ∧ is_whitelisted whitelist "blur" then
      (blurParse (trim_start_matches "blur" arg)).map Op.blur
    else none)

/-- A store holding one alias `a.png` for the one-byte hash `[7]`, with alias
id `1` and delete token `tok123`. -/
def store1 : Store :=
  { db := [(alias_key [7] "1", strBytes "a.png")],
    aliasTree := [(delete_key "a.png", strBytes "tok123"),
      (alias_id_key "a.png", strBytes "1"), ("a.png", [7])] }

/-! Lemmas about the byte-lexicographic key order. -/

theorem bytesLt_append_self (xs ys : List Nat) : bytesLt (xs ++ ys) xs = false := by
  induction xs with
  | nil => cases ys <;> simp [bytesLt]
  | cons x xs ih => simp [bytesLt, ih]

theorem bytesLt_append_cons (xs : List Nat) (y : Nat) (ys : List Nat) :
    bytesLt xs (xs ++ y :: ys) = true := by
  induction xs with
  | nil => simp [bytesLt]
  | cons x xs ih => simp [bytesLt, ih]

theorem bytesLt_append_lt (xs : List Nat) (a b : Nat) (ys zs : List Nat)
    (h : a < b) : bytesLt (xs ++ a :: ys) (xs ++ b :: zs) = true := by
  induction xs with
  | nil => simp [bytesLt, h]
  | cons x xs ih => simp [bytesLt, ih]

theorem bytesLt_irrefl (a : List Nat) : bytesLt a a = false := by
  induction a with
  | nil => simp [bytesLt]
  | cons x xs ih => simp [bytesLt, ih]

theorem bytesLt_trans (a : List Nat) :
    ∀ b c, bytesLt a b = true → bytesLt b c = true → bytesLt a c = true := by
  induction a with
  | nil =>
    intro b c hab hbc
    cases b with
    | nil => simp [bytesLt] at hab
    | cons y ys =>
      cases c with
      | nil => simp [bytesLt] at hbc
      | cons z zs => simp [bytesLt]
  | cons x xs ih =>
    intro b c hab hbc
    cases b with
    | nil => simp [bytesLt] at hab
    | cons y ys =>
      cases c with
      | nil => simp [bytesLt] at hbc
      | cons z zs =>
        simp only [bytesLt, Bool.or_eq_true, Bool.and_eq_true,
          decide_eq_true_eq] at hab hbc ⊢
        rcases hab with h1 | ⟨h1, h1'⟩ <;> rcases hbc with h2 | ⟨h2, h2'⟩
        · exact Or.inl (h1.trans h2)
        · exact Or.inl (h2 ▸ h1)
        · exact Or.inl (h1 ▸ h2)
        · exact Or.inr ⟨h1.trans h2, ih ys zs h1' h2'⟩

theorem bytesLe_append (xs ys : List Nat) : bytesLe xs (xs ++ ys) = true := by
  cases ys with
  | nil => simp [bytesLe]
  | cons y ys => simp [bytesLe, bytesLt_append_cons]

theorem bytesLe_append_cons_self (xs : List Nat) (y : Nat) (ys : List Nat) :
    bytesLe (xs ++ y :: ys) xs = false := by
  have hne : xs ++ y :: ys ≠ xs := by
    intro h
    have := congrArg List.length h
    simp at this
  simp [bytesLe, bytesLt_append_self, hne]

/-- C5: for every 32-byte hash, alias keys fall inside the alias bounds,
variant keys fall inside the variant bounds, the two half-open ranges are
disjoint, and the bare hash key (the hash → filename row) lies in neither
range. -/
theorem key_layout (h : List Nat) (_hlen : h.length = 32) (i p : String) :
    inRange (alias_key_bounds h) (alias_key h i) = true ∧
    inRange (variant_key_bounds h) (variant_key h p) = true ∧
    (∀ k, inRange (alias_key_bounds h) k = true →
      inRange (variant_key_bounds h) k = false) ∧
    inRange (alias_key_bounds h) h = false ∧
    inRange (variant_key_bounds h) h = false := by
  refine ⟨?_, ?_, ?_, ?_, ?_⟩
  · have h1 : alias_key h i = (h ++ [0]) ++ strBytes i := by
      simp [alias_key]
    have h2 : alias_key h i = h ++ 0 :: strBytes i := by
      simp [alias_key]
    simp only [inRange, alias_key_bounds, Bool.and_eq_true]
    constructor
    · rw [h1]; exact bytesLe_append _ _
    · rw [h2]
      exact bytesLt_append_lt h 0 1 _ [] (by omega)
  · have h1 : variant_key h p = (h ++ [2]) ++ strBytes p := by
      simp [variant_key]
    have h2 : variant_key h p = h ++ 2 :: strBytes p := by
      simp [variant_key]
    simp only [inRange, variant_key_bounds, Bool.and_eq_true]
    constructor
    · rw [h1]; exact bytesLe_append _ _
    · rw [h2]
      exact bytesLt_append_lt h 2 3 _ [] (by omega)
  · intro k hk
    simp only [inRange, alias_key_bounds, Bool.and_eq_true] at hk
    obtain ⟨-, hklt⟩ := hk
    have h12 : bytesLt (h ++ [1]) (h ++ [2]) = true :=
      bytesLt_append_lt h 1 2 [] [] (by omega)
    have hk2 : bytesLt k (h ++ [2]) = true :=
      bytesLt_trans k _ _ hklt h12
    have hstart : bytesLe (h ++ [2]) k = false := by
      rcases hle : bytesLe (h ++ [2]) k with _ | _
      · rfl
      · exfalso
        simp only [bytesLe, Bool.or_eq_true, decide_eq_true_eq] at hle
        rcases hle with hlt | heq
        · have : bytesLt k k = true := bytesLt_trans k _ _ hk2 hlt
          rw [bytesLt_irrefl] at this
          exact Bool.false_ne_true this
        · rw [heq] at hk2
          rw [bytesLt_irrefl] at hk2
          exact Bool.false_ne_true hk2
    simp [inRange, variant_key_bounds, hstart]
  · have : bytesLe (h ++ [0]) h = false := bytesLe_append_cons_self h 0 []
    simp [inRange, alias_key_bounds, this]
  · have : bytesLe (h ++ [2]) h = false := bytesLe_append_cons_self h 2 []
    simp [inRange, variant_key_bounds, this]

/-- Witness for C5 at a concrete 32-byte hash, alias id and variant path. -/
theorem key_layout_witness :
    (List.replicate 32 7 : List Nat).length = 32 ∧
    inRange (alias_key_bounds (List.replicate 32 7))
      (alias_key (List.replicate 32 7) "12") = true ∧
    inRange (variant_key_bounds (List.replicate 32 7))
      (variant_key (List.replicate 32 7) "files/thumbnail/64/x.png") = true :=
  ⟨by decide,
    (key_layout (List.replicate 32 7) (by decide) "12"
      "files/thumbnail/64/x.png").1,
    (key_layout (List.replicate 32 7) (by decide) "12"
      "files/thumbnail/64/x.png").2.1⟩

/-- C6 counterexample: the claim says image/webp gives ".webp", but `to_ext`
has no webp arm and image/webp falls through to ".bmp". -/
theorem to_ext_webp_counterexample :
    to_ext "image/webp" = ".bmp" ∧ ".bmp" ≠ ".webp" := by
  constructor
  · rfl
  · decide

/-- C6 amended: the extension table is PNG → ".png", JPEG → ".jpg",
GIF → ".gif", and every other mime type — including image/webp — gives
".bmp"; `file_name` appends that extension to the random stem. -/
theorem to_ext_table :
    to_ext "image/png" = ".png" ∧
    to_ext "image/jpeg" = ".jpg" ∧
    to_ext "image/gif" = ".gif" ∧
    (∀ m : String, m ≠ "image/png" → m ≠ "image/jpeg" → m ≠ "image/gif" →
      to_ext m = ".bmp") ∧
    (∀ n ct, file_name n ct = n ++ to_ext ct) := by
  refine ⟨rfl, rfl, rfl, ?_, fun n ct => rfl⟩
  intro m h1 h2 h3
  simp [to_ext, h1, h2, h3]

/-- Witness for C6's amended theorem: the fallthrough arm evaluated at
image/webp. -/
theorem to_ext_table_witness : to_ext "image/webp" = ".bmp" :=
  to_ext_table.2.2.2.1 "image/webp" (by decide) (by decide) (by decide)

/-- C4 counterexample: the claim says UnsupportedFormat maps to 400, but it
falls to the wildcard arm of `status_code` and maps to 500. -/
theorem status_code_counterexample :
    status_code UploadError.UnsupportedFormat = 500 ∧ (500 : Nat) ≠ 400 := by
  exact ⟨rfl, by decide⟩

/-- C4 amended: among the validator-rejection errors only Gif maps to 400;
InvalidImage and UnsupportedFormat fall to the wildcard arm and map to 500. -/
theorem status_code_validator_errors :
    status_code UploadError.Gif = 400 ∧
    status_code UploadError.InvalidImage = 500 ∧
    status_code UploadError.UnsupportedFormat = 500 :=
  ⟨rfl, rfl, rfl⟩

/-- C2 counterexample: with prescribed format JPEG and a detected GIF,
`validate_image` re-encodes as GIF and returns image/gif, not the prescribed
format's content type. -/
theorem validate_gif_counterexample :
    validate_image (some Format.jpeg) MediaType.gif =
      Except.ok (ValidateAction.reencodeGif, "image/gif") ∧
    "image/gif" ≠ Format.to_mime Format.jpeg := by
  constructor
  · rfl
  · decide

/-- C2 amended: the `(_, MediaType::Gif)` arm is first in the match, so for a
detected GIF `validate_image` re-encodes as GIF and returns image/gif
regardless of the prescribed format. -/
theorem validate_gif_any_prescribed (p : Option Format) :
    validate_image p MediaType.gif =
      Except.ok (ValidateAction.reencodeGif, "image/gif") := by
  simp [validate_image]

/-- C3 counterexample: a detected BMP with no prescribed format does not
succeed; it falls through every arm to the catch-all and fails with
UnsupportedFormat. -/
theorem validate_bmp_counterexample :
    validate_image none MediaType.bmp =
      Except.error UploadError.UnsupportedFormat ∧
    ∀ act ct, validate_image none MediaType.bmp ≠ Except.ok (act, ct) := by
  constructor
  · rfl
  · intro act ct h
    exact absurd h (by simp [validate_image])

/-- C3 amended: with no prescribed format a detected BMP fails with
UnsupportedFormat; only when a prescribed format P is configured is a BMP
decoded and re-encoded in P (via the `(Some(format), _)` arm). -/
theorem validate_bmp_dispatch :
    validate_image none MediaType.bmp =
      Except.error UploadError.UnsupportedFormat ∧
    ∀ f : Format, validate_image (some f) MediaType.bmp =
      Except.ok (ValidateAction.convertTo f, f.to_mime) := by
  constructor
  · rfl
  · intro f
    cases f <;> rfl

/-- C1: deleting an alias with a wrong token aborts the transaction with
InvalidToken and leaves every index row intact: the token row, the id row and
the alias → hash row in the alias keyspace and every `hash ‖ 0x00 ‖ id` row in
the default keyspace are unchanged (the whole store is returned untouched). -/
theorem delete_invalid_token (s : Store) (al token : String) (t : List Nat)
    (hrow : aget s.aliasTree (delete_key al) = some t)
    (hne : t ≠ strBytes token) :
    delete_transaction s al token = (.error .InvalidToken, s) ∧
    aget (delete_transaction s al token).2.aliasTree (delete_key al) = some t ∧
    aget (delete_transaction s al token).2.aliasTree (alias_id_key al) =
      aget s.aliasTree (alias_id_key al) ∧
    aget (delete_transaction s al token).2.aliasTree al = aget s.aliasTree al ∧
    ∀ hsh id, aget (delete_transaction s al token).2.db (alias_key hsh id) =
      aget s.db (alias_key hsh id) := by
  have heq : delete_transaction s al token = (.error .InvalidToken, s) := by
    simp [delete_transaction, hrow, hne]
  refine ⟨heq, ?_, ?_, ?_, ?_⟩
  · rw [heq]; exact hrow
  · rw [heq]
  · rw [heq]
  · intro hsh id; rw [heq]

/-- Witness for C1: a wrong token against `store1` aborts and returns the
store unchanged. -/
theorem delete_invalid_token_witness :
    delete_transaction store1 "a.png" "bad" =
      (.error .InvalidToken, store1) :=
  (delete_invalid_token store1 "a.png" "bad" (strBytes "tok123")
    (by decide) (by decide)).1

/-- C7 counterexample: the claim says `safe_save_stream` succeeds without
writing when the target exists; in the source an existing target fails the
metadata probe branch and the call returns FileExists, not Ok. -/
theorem safe_save_stream_counterexample :
    (safe_save_stream [("files/abc.png", [1, 2, 3])] "files/abc.png"
      [[9]]).1 = Except.error UploadError.FileExists ∧
    (safe_save_stream [("files/abc.png", [1, 2, 3])] "files/abc.png"
      [[9]]).1 ≠ Except.ok () := by
  exact ⟨rfl, by decide⟩

/-- C7 amended: when the target path already exists, `safe_save_stream` fails
with FileExists (the same contract as `safe_move_file`) and the filesystem —
in particular the existing file's contents — is left unchanged. -/
theorem safe_save_stream_existing (fs : List (String × List Nat))
    (dest : String) (stream : List (List Nat)) (contents : List Nat)
    (h : aget fs dest = some contents) :
    safe_save_stream fs dest stream = (.error .FileExists, fs) ∧
    aget (safe_save_stream fs dest stream).2 dest = some contents := by
  have heq : safe_save_stream fs dest stream = (.error .FileExists, fs) := by
    simp [safe_save_stream, h]
  exact ⟨heq, by rw [heq]; exact h⟩

/-- Witness for C7's amended theorem on a concrete one-file filesystem. -/
theorem safe_save_stream_existing_witness :
    safe_save_stream [("files/abc.png", [1, 2, 3])] "files/abc.png" [[9]] =
      (.error .FileExists, [("files/abc.png", [1, 2, 3])]) :=
  (safe_save_stream_existing [("files/abc.png", [1, 2, 3])] "files/abc.png"
    [[9]] [1, 2, 3] (by decide)).1

/-- Decoding the byte view of an ASCII string recovers the string. -/
theorem strBytes_roundtrip (f : String) (h : ∀ c ∈ f.data, c.toNat < 128) :
    bytesToStr (strBytes f) = some f := by
  have hall : (strBytes f).all (fun b => decide (b < 128)) = true := by
    rw [strBytes, List.all_eq_true]
    intro b hb
    rw [List.mem_map] at hb
    obtain ⟨c, hc, rfl⟩ := hb
    exact decide_eq_true (h c hc)
  have hmap : (strBytes f).map Char.ofNat = f.data := by
    rw [strBytes, List.map_map]
    have hcongr : ∀ c ∈ f.data, (Char.ofNat ∘ Char.toNat) c = c := by
      intro c _
      exact Char.ofNat_toNat c
    rw [List.map_congr_left hcongr]
    exact List.map_id f.data
  simp [bytesToStr, hall, hmap]

/-- Once a token is stored for an alias, every further `delete_token` call
returns that token and leaves the tree unchanged. -/
theorem delete_token_stored (tree : List (String × List Nat)) (al t : String)
    (hv : aget tree (delete_key al) = some (strBytes t))
    (ht : ∀ c ∈ t.data, c.toNat < 128) :
    ∀ fs, delete_token_calls tree al fs = fs.map (fun _ => .ok t) := by
  intro fs
  induction fs with
  | nil => rfl
  | cons f fs ih =>
    simp [delete_token_calls, delete_token, hv, strBytes_roundtrip t ht, ih]

/-- C8: for every alias and every k ≥ 1 (a first random token and k-1 later
ones), calling `delete_token` k times from a state with no token bound
returns the same token each time: the first call binds the fresh 10-char
token via compare-and-swap with old = None, and every later call returns the
stored token. -/
theorem delete_token_single_binding (tree : List (String × List Nat))
    (al f : String) (fs : List String)
    (hnone : aget tree (delete_key al) = none)
    (_hlen : f.length = 10)
    (hascii : ∀ c ∈ f.data, c.toNat < 128) :
    delete_token_calls tree al (f :: fs) =
      List.replicate (fs.length + 1) (Except.ok f) := by
  have hfirst : delete_token tree al f =
      .ok (f, ainsert tree (delete_key al) (strBytes f)) := by
    simp [delete_token, hnone]
  have hget : aget (ainsert tree (delete_key al) (strBytes f))
      (delete_key al) = some (strBytes f) := by
    simp [ainsert, aget]
  have hrest := delete_token_stored _ al f hget hascii fs
  simp [delete_token_calls, hfirst, hrest, List.replicate_succ,
    List.map_const]

/-- Witness for C8: three calls on an empty tree all return the first
10-char token. -/
theorem delete_token_single_binding_witness :
    delete_token_calls [] "a.png" ["abcDE12345", "x", "y"] =
      List.replicate 3 (Except.ok "abcDE12345") :=
  delete_token_single_binding [] "a.png" "abcDE12345" ["x", "y"]
    (by decide) (by decide) (by decide)

/-- C10: with validate = false, `import` skips canonicalization entirely (the
result does not depend on the canonicalizer), keeps the caller-supplied
content type, and hashes the raw uploaded bytes; under injectivity of the
hash two such imports share a hash exactly when their raw bytes are
identical. -/
theorem manager_import_skip_validation (hashFn : List Nat → List Nat)
    (canon canon2 : List Nat → Except UploadError (String × List Nat))
    (al ct : String) (s s2 : List (List Nat))
    (hinj : Function.Injective hashFn) :
    manager_import hashFn canon al ct false s =
      .ok (al, ct, hashFn s.flatten) ∧
    manager_import hashFn canon al ct false s =
      manager_import hashFn canon2 al ct false s ∧
    (hashFn s.flatten = hashFn s2.flatten ↔ s.flatten = s2.flatten) := by
  refine ⟨rfl, rfl, fun h => hinj h, fun h => by rw [h]⟩

/-- Witness for C10 with the identity as the (injective) hash and two
canonicalizers that would disagree if they were consulted. -/
theorem manager_import_skip_validation_witness :
    manager_import id (fun _ => .error .UnsupportedFormat) "banner.jpg"
      "image/jpeg" false [[1, 2], [3]] =
      .ok ("banner.jpg", "image/jpeg", [1, 2, 3]) ∧
    manager_import id (fun _ => .error .UnsupportedFormat) "banner.jpg"
      "image/jpeg" false [[1, 2], [3]] =
      manager_import id (fun _ => .ok ("image/png", [9])) "banner.jpg"
        "image/jpeg" false [[1, 2], [3]] ∧
    (id [1, 2, 3] = id [1, 2, 3] ↔ ([1, 2, 3] : List Nat) = [1, 2, 3]) :=
  manager_import_skip_validation id (fun _ => .error .UnsupportedFormat)
    (fun _ => .ok ("image/png", [9])) "banner.jpg" "image/jpeg"
    [[1, 2], [3]] [[1, 2], [3]] Function.injective_id

/-- C9 counterexample: the segment thumbnail0, whose numeric part 0 is not a
positive integer, is nonetheless included as a thumbnail operator because
usize parsing accepts 0. -/
theorem thumbnail_zero_counterexample :
    build_chain (fun _ => none) ["thumbnail0"] none = [Op.thumbnail 0] ∧
    ¬ 0 < 0 := by
  exact ⟨by decide, by decide⟩

/-- C9 amended: a segment starting with `thumbnail` is included as a
thumbnail operator exactly when the remainder after stripping the
`thumbnail` prefix parses as a usize — a nonnegative integer below 2^64,
zero included — and is dropped otherwise. -/
theorem thumbnail_segment_chain (bp : String → Option String) (s : String)
    (hstart : str_starts_with s "thumbnail" = true) :
    build_chain bp [s] none =
      match parse_usize (trim_start_matches "thumbnail" s) with
      | some n => [Op.thumbnail n]
      | none => [] := by
  have hne : s ≠ "identity" := by
    intro he
    rw [he] at hstart
    exact absurd hstart (by decide)
  have hwl : is_whitelisted none "thumbnail" = true := rfl
  simp only [build_chain, List.filterMap_cons, List.filterMap_nil]
  rw [if_neg (fun hc => hne hc.1), if_pos ⟨hstart, hwl⟩]
  cases hp : parse_usize (trim_start_matches "thumbnail" s) <;>
    simp [thumbnail_parse, hp]

/-- Witness for C9's amended theorem: thumbnail256 parses and is included as
a thumbnail(256) operator. -/
theorem thumbnail_segment_chain_witness :
    build_chain (fun _ => none) ["thumbnail256"] none = [Op.thumbnail 256] :=
  thumbnail_segment_chain (fun _ => none) "thumbnail256" (by decide)

end Pictrs
